import Mathlib

/-!
Shallow embedding of `src/app.py` (Research Paper Analyzer, Streamlit app).

Python dictionaries are modelled as insertion-ordered association lists
(`List (String × α)`): assignment `d[k] = v` updates the value in place when
the key is present (keeping its position) and appends the pair otherwise,
exactly as CPython dicts behave.  Python strings are modelled as `String`
(with `.data : List Char` where character-level work is needed); `str.lower`
is modelled as character-wise `Char.toLower` (the ASCII case mapping, which
agrees with Python on every character relevant to the literal "compare"), and
`not s.strip()` — truth of the whitespace-stripped string — is modelled as
"every character is whitespace".
-/

namespace Wib

/-- CPython dict assignment `d[k] = v` on an insertion-ordered association
list: update in place if the key is present, else append at the end. -/
def pyDictSet {α : Type} : List (String × α) → String → α → List (String × α)
  | [], k, v => [(k, v)]
  | (k', v') :: t, k, v =>
      if k' = k then (k', v) :: t else (k', v') :: pyDictSet t k v

/-- Dict lookup `d.get(k)` returning `none` when the key is absent. -/
def dictLookup {α : Type} : List (String × α) → String → Option α
  | [], _ => none
  | (k', v) :: t, k => if k' = k then some v else dictLookup t k

/-- The keys of a dict, in iteration (insertion) order. -/
def dictKeys {α : Type} (d : List (String × α)) : List String :=
  d.map Prod.fst

/-- A dict whose keys appear at most once — the invariant CPython maintains. -/
def NodupKeys {α : Type} (d : List (String × α)) : Prop :=
  (dictKeys d).Nodup

/-- `mock_structured_summary` output shape (app.py lines 9–15). -/
structure StructuredSummary where
  title : String
  problem : String
  method : String
  results : String
  limitations : String
deriving DecidableEq, Repr

/-- app.py lines 7–15: mocked structured JSON response for a single paper. -/
def mock_structured_summary (paper_name : String) : StructuredSummary :=
  { title := paper_name
    problem := "Limited generalization to out-of-distribution datasets."
    method := "Hybrid RAG with a transformer-based retriever and lightweight reader."
    results := "Up to 15% improvement on in-domain benchmarks; mixed OOD performance."
    limitations := "Small evaluation set; no ablation on hyperparameters." }

/-- app.py lines 18–20: the dict comprehension
`return {p: mock_structured_summary(p) for p in papers}`, built with CPython
dict-insertion semantics. -/
def mock_comparison (papers : List String) : List (String × StructuredSummary) :=
  papers.foldl (fun d p => pyDictSet d p (mock_structured_summary p)) []

/-- Does `hay` start with `needle` (character lists)? -/
def listStartsWith : List Char → List Char → Bool
  | [], _ => true
  | _ :: _, [] => false
  | a :: as, b :: bs => a == b && listStartsWith as bs

/-- Python substring test `needle in hay` on character lists. -/
def pyInStr (needle : List Char) : List Char → Bool
  | [] => listStartsWith needle []
  | c :: t => listStartsWith needle (c :: t) || pyInStr needle t

/-- The literal `"compare"` from app.py line 131, as a character list. -/
def cmpLit : List Char := ['c', 'o', 'm', 'p', 'a', 'r', 'e']

/-- app.py lines 127–132: intent detection.  `comparison_intent` starts
false, is set by `len(selected_list) > 1`, and is set by
`"compare" in q_low or "compare" in question` where `q_low = question.lower()`. -/
def comparison_intent (question : String) (selectedCount : Nat) : Bool :=
  let q_low := question.data.map Char.toLower
  decide (selectedCount > 1) || (pyInStr cmpLit q_low || pyInStr cmpLit question.data)

/-- Case-insensitive occurrence of `needle` in `s`, as the spec words it:
the substring occurs somewhere in `s` ignoring case. -/
def occursCaseInsensitive (needle : List Char) (s : String) : Bool :=
  pyInStr (needle.map Char.toLower) (s.data.map Char.toLower)

/-- Python truthiness of `question.strip()` negated: the string is blank
(empty or whitespace-only) after trimming. -/
def pyStripEmpty (s : String) : Bool :=
  s.data.all Char.isWhitespace

/-- app.py line 110: `selected_list = [p for p, v in st.session_state.selections.items() if v]`. -/
def selected_list (d : List (String × Bool)) : List String :=
  (d.filter (fun e => e.2)).map Prod.fst

/-- app.py lines 177–181: the record saved to `st.session_state.last_query`. -/
structure LastQuery where
  question : String
  selected : List String
  comparison : Bool
deriving DecidableEq, Repr

/-- The output payload rendered on a successful submit: either the comparison
dict of app.py line 144 or the single summary of line 164. -/
inductive Payload where
  | comparisonView (comp : List (String × StructuredSummary))
  | singleView (summary : StructuredSummary)
deriving DecidableEq, Repr

/-- app.py lines 120–181: the submit handler.  Given `selected_list`, the
question and the current `last_query`, it returns the error messages shown,
the payload produced (none when validation blocks), and the new `last_query`.
The two validation branches are `if ... elif ...` in the source; the success
branch computes the intent, renders one of the two payloads, and overwrites
`last_query`. -/
def askHandler (sel : List String) (question : String)
    (last_query : Option LastQuery) :
    List String × Option Payload × Option LastQuery :=
  if sel.isEmpty then
    (["Please select one or more papers before asking a question."], none, last_query)
  else if pyStripEmpty question then
    (["Question is empty. Use the suggested chips or enter a question."], none, last_query)
  else
    let ci := comparison_intent question sel.length
    let payload :=
      if ci then Payload.comparisonView (mock_comparison sel)
      else Payload.singleView (mock_structured_summary (sel.headD ""))
    ([], some payload, some ⟨question, sel, ci⟩)

/-- app.py lines 112–124: every validation message displayed on a script run.
Lines 112–113 and 115–116 are two independent `if` statements that always
run; lines 120–124 add the submit handler's message when the Ask button was
pressed. -/
def renderValidation (sel : List String) (question : String) (ask_btn : Bool)
    (last_query : Option LastQuery) : List String :=
  (if sel.isEmpty then ["Select at least one paper card to proceed."] else []) ++
  (if pyStripEmpty question then
    ["Question cannot be empty — use a chip or type a question."] else []) ++
  (if ask_btn then (askHandler sel question last_query).1 else [])

/-- The two selection modes of the radio control (app.py line 58); `Multi`
is listed first and is therefore the default. -/
inductive Mode where
  | Multi
  | Single
deriving DecidableEq, Repr

/-- The session state the selection logic touches: the current mode and the
`st.session_state.selections` dict. -/
structure AppState where
  mode : Mode
  selections : List (String × Bool)
deriving DecidableEq, Repr

/-- User actions on the selection store, each mirroring one widget of the
source: the mode radio (line 58), the Select All button (lines 60–62), the
Clear Selection button (lines 65–66), the per-card single-select button
(lines 81–84, rendered only in Single mode) and the per-card checkbox write
(lines 86–87, rendered only in Multi mode). -/
inductive UAction where
  | setMode (m : Mode)
  | selectAllBtn (ids : List String)
  | clearBtn
  | singleSelectBtn (id : String)
  | checkboxSet (id : String) (v : Bool)

/-- One step of the selection store.  The single-select button and the
checkbox exist only in their respective modes (the `if selection_mode ==
"Single"` dispatch at app.py line 80), so in the other mode those actions
leave the state unchanged. -/
def step (s : AppState) (a : UAction) : AppState :=
  match a with
  | .setMode m => { s with mode := m }
  | .selectAllBtn ids =>
      { s with selections := ids.foldl (fun d p => pyDictSet d p true) s.selections }
  | .clearBtn => { s with selections := [] }
  | .singleSelectBtn id =>
      if s.mode = Mode.Single then { s with selections := [(id, true)] } else s
  | .checkboxSet id v =>
      if s.mode = Mode.Multi then { s with selections := pyDictSet s.selections id v } else s

/-- The state reached from session start (mode defaults to Multi, selections
initialized to `{}` at app.py lines 50–51) by a list of user actions. -/
def reach (acts : List UAction) : AppState :=
  acts.foldl step ⟨Mode.Multi, []⟩

/-- A trace of Multi-mode checkbox writes applied to the selections dict:
each event `(id, v)` performs `st.session_state.selections[id] = v`
(app.py line 87). -/
def applyToggles (tr : List (String × Bool)) (s : List (String × Bool)) :
    List (String × Bool) :=
  tr.foldl (fun d e => pyDictSet d e.1 e.2) s

/-- A trace of checkbox actions fed through `step`. -/
def applyChecks (tr : List (String × Bool)) (s : AppState) : AppState :=
  tr.foldl (fun st e => step st (.checkboxSet e.1 e.2)) s

/-- The value of the last toggle event for `x` in a trace, if any. -/
def lastSet : List (String × Bool) → String → Option Bool
  | [], _ => none
  | e :: t, x =>
      match lastSet t x with
      | some w => some w
      | none => if e.1 = x then some e.2 else none

/-- `Option` fallback: the first operand when present, else the second. -/
def optOr {α : Type} : Option α → Option α → Option α
  | some a, _ => some a
  | none, b => b

/-- Modelled from the spec: the ids of a toggle trace "in the order they
became true".  An id is appended to the order when a toggle turns its flag
true from not-true; turning it false removes it; re-affirming true keeps its
place.  This definition follows the spec words of §4.1 `selected()` and is
compared against the source's `selected_list`. -/
def btoStep (acc : List (String × Bool) × List String) (ev : String × Bool) :
    List (String × Bool) × List String :=
  let d := acc.1
  let ord := acc.2
  if ev.2 then
    if dictLookup d ev.1 = some true then (pyDictSet d ev.1 true, ord)
    else (pyDictSet d ev.1 true, ord.filter (fun y => y != ev.1) ++ [ev.1])
  else (pyDictSet d ev.1 false, ord.filter (fun y => y != ev.1))

/-- Modelled from the spec: the order in which ids of a toggle trace became
true (see `btoStep`). -/
def becameTrueOrder (tr : List (String × Bool)) : List String :=
  (tr.foldl btoStep ([], [])).2

/-! ## Dictionary lemmas -/

theorem dictLookup_pyDictSet {α : Type} (d : List (String × α)) (k : String) (v : α)
    (x : String) :
    dictLookup (pyDictSet d k v) x = if k = x then some v else dictLookup d x := by
  induction d with
  | nil => simp [pyDictSet, dictLookup]
  | cons e t ih =>
    obtain ⟨k', v'⟩ := e
    by_cases hk : k' = k
    · subst hk
      by_cases hx : k' = x <;> simp [pyDictSet, dictLookup, hx]
    · by_cases hx : k' = x
      · subst hx
        have hkx : ¬ k = k' := fun h => hk h.symm
        simp [pyDictSet, dictLookup, hk, hkx]
      · simp [pyDictSet, dictLookup, hk, hx, ih]

theorem mem_dictKeys_pyDictSet {α : Type} (d : List (String × α)) (k : String) (v : α)
    (x : String) :
    x ∈ dictKeys (pyDictSet d k v) ↔ x ∈ dictKeys d ∨ x = k := by
  induction d with
  | nil => simp [pyDictSet, dictKeys]
  | cons e t ih =>
    obtain ⟨k', v'⟩ := e
    by_cases hk : k' = k
    · subst hk
      simp [pyDictSet, dictKeys]
      tauto
    · simp [pyDictSet, dictKeys, hk] at ih ⊢
      tauto

theorem nodupKeys_pyDictSet {α : Type} {d : List (String × α)} (h : NodupKeys d)
    (k : String) (v : α) : NodupKeys (pyDictSet d k v) := by
  induction d with
  | nil => simp [pyDictSet, NodupKeys, dictKeys]
  | cons e t ih =>
    obtain ⟨k', v'⟩ := e
    rw [NodupKeys, dictKeys, List.map_cons, List.nodup_cons] at h
    by_cases hk : k' = k
    · subst hk
      have he : pyDictSet ((k', v') :: t) k' v = (k', v) :: t := by
        simp [pyDictSet]
      rw [he, NodupKeys, dictKeys, List.map_cons, List.nodup_cons]
      exact h
    · have he : pyDictSet ((k', v') :: t) k v = (k', v') :: pyDictSet t k v := by
        simp [pyDictSet, hk]
      rw [he, NodupKeys, dictKeys, List.map_cons, List.nodup_cons]
      refine ⟨fun hmem => ?_, ih h.2⟩
      rcases (mem_dictKeys_pyDictSet t k v k').mp hmem with h1 | h1
      · exact h.1 h1
      · exact hk h1

theorem pyDictSet_of_not_mem {α : Type} {d : List (String × α)} {k : String}
    (h : k ∉ dictKeys d) (v : α) : pyDictSet d k v = d ++ [(k, v)] := by
  induction d with
  | nil => simp [pyDictSet]
  | cons e t ih =>
    obtain ⟨k', v'⟩ := e
    rw [dictKeys, List.map_cons, List.mem_cons] at h
    push_neg at h
    have hk : ¬ k' = k := fun he => h.1 he.symm
    rw [pyDictSet, if_neg hk, List.cons_append, ih h.2]

theorem selected_list_sublist (d : List (String × Bool)) :
    (selected_list d).Sublist (dictKeys d) :=
  List.Sublist.map Prod.fst (List.filter_sublist d)

theorem dictLookup_eq_some_iff {α : Type} {d : List (String × α)} (h : NodupKeys d)
    (x : String) (v : α) : dictLookup d x = some v ↔ (x, v) ∈ d := by
  induction d with
  | nil => simp [dictLookup]
  | cons e t ih =>
    obtain ⟨k, w⟩ := e
    rw [NodupKeys, dictKeys, List.map_cons, List.nodup_cons] at h
    have h2 := ih h.2
    by_cases hk : k = x
    · subst hk
      rw [dictLookup, if_pos rfl]
      constructor
      · intro hw
        rw [Option.some_inj] at hw
        rw [← hw]
        exact List.mem_cons_self _ _
      · intro hmem
        rcases List.mem_cons.mp hmem with h1 | h1
        · rw [Prod.mk.injEq] at h1
          rw [h1.2]
        · exact absurd (List.mem_map.mpr ⟨(k, v), h1, rfl⟩) h.1
    · rw [dictLookup, if_neg hk, h2, List.mem_cons]
      constructor
      · exact Or.inr
      · rintro (h1 | h1)
        · rw [Prod.mk.injEq] at h1
          exact absurd h1.1.symm hk
        · exact h1

theorem mem_selected_list {d : List (String × Bool)} (h : NodupKeys d) (x : String) :
    x ∈ selected_list d ↔ dictLookup d x = some true := by
  rw [dictLookup_eq_some_iff h]
  constructor
  · intro hmem
    rcases List.mem_map.mp hmem with ⟨e, he, hfst⟩
    rcases List.mem_filter.mp he with ⟨hed, hsnd⟩
    obtain ⟨a, b⟩ := e
    cases b with
    | false => exact absurd hsnd (by simp)
    | true =>
      have : a = x := hfst
      exact this ▸ hed
  · intro hmem
    exact List.mem_map.mpr ⟨(x, true), List.mem_filter.mpr ⟨hmem, rfl⟩, rfl⟩

/-! ## Fold, step and trace lemmas -/

theorem dictLookup_foldl_true (ids : List String) :
    ∀ (s : List (String × Bool)) (x : String),
      dictLookup (ids.foldl (fun d p => pyDictSet d p true) s) x =
        if x ∈ ids then some true else dictLookup s x := by
  induction ids with
  | nil => intro s x; simp
  | cons p t ih =>
    intro s x
    rw [List.foldl_cons, ih]
    by_cases hx : x ∈ t
    · simp [hx]
    · by_cases hp : x = p
      · subst hp
        simp [hx, dictLookup_pyDictSet]
      · have hp' : ¬ p = x := fun he => hp he.symm
        simp [hx, hp, dictLookup_pyDictSet, hp']

theorem nodupKeys_foldl_true (ids : List String) :
    ∀ {s : List (String × Bool)}, NodupKeys s →
      NodupKeys (ids.foldl (fun d p => pyDictSet d p true) s) := by
  induction ids with
  | nil => intro s h; exact h
  | cons p t ih =>
    intro s h
    rw [List.foldl_cons]
    exact ih (nodupKeys_pyDictSet h p true)

theorem nodupKeys_step {s : AppState} (h : NodupKeys s.selections) (a : UAction) :
    NodupKeys (step s a).selections := by
  cases a with
  | setMode m => exact h
  | selectAllBtn ids => exact nodupKeys_foldl_true ids h
  | clearBtn => simp [step, NodupKeys, dictKeys]
  | singleSelectBtn id =>
    by_cases hm : s.mode = Mode.Single
    · simp [step, hm, NodupKeys, dictKeys]
    · simpa [step, hm] using h
  | checkboxSet id v =>
    by_cases hm : s.mode = Mode.Multi
    · simpa [step, hm] using nodupKeys_pyDictSet h id v
    · simpa [step, hm] using h

theorem nodupKeys_foldl_step (acts : List UAction) :
    ∀ {s : AppState}, NodupKeys s.selections →
      NodupKeys (acts.foldl step s).selections := by
  induction acts with
  | nil => intro s h; exact h
  | cons a t ih =>
    intro s h
    rw [List.foldl_cons]
    exact ih (nodupKeys_step h a)

theorem nodupKeys_reach (acts : List UAction) : NodupKeys (reach acts).selections :=
  nodupKeys_foldl_step acts (by simp [NodupKeys, dictKeys])

theorem dictLookup_applyToggles (tr : List (String × Bool)) :
    ∀ (s : List (String × Bool)) (x : String),
      dictLookup (applyToggles tr s) x = optOr (lastSet tr x) (dictLookup s x) := by
  induction tr with
  | nil => intro s x; simp [applyToggles, lastSet, optOr]
  | cons e t ih =>
    intro s x
    have h1 : applyToggles (e :: t) s = applyToggles t (pyDictSet s e.1 e.2) := rfl
    rw [h1, ih]
    cases hl : lastSet t x with
    | some w => simp [lastSet, hl, optOr]
    | none =>
      rw [dictLookup_pyDictSet]
      by_cases he : e.1 = x <;> simp [lastSet, hl, optOr, he]

theorem nodupKeys_applyToggles (tr : List (String × Bool)) :
    ∀ {s : List (String × Bool)}, NodupKeys s → NodupKeys (applyToggles tr s) := by
  induction tr with
  | nil => intro s h; exact h
  | cons e t ih =>
    intro s h
    have h1 : applyToggles (e :: t) s = applyToggles t (pyDictSet s e.1 e.2) := rfl
    rw [h1]
    exact ih (nodupKeys_pyDictSet h e.1 e.2)

theorem applyChecks_multi (tr : List (String × Bool)) :
    ∀ sel : List (String × Bool),
      applyChecks tr ⟨Mode.Multi, sel⟩ = ⟨Mode.Multi, applyToggles tr sel⟩ := by
  induction tr with
  | nil => intro sel; rfl
  | cons e t ih =>
    intro sel
    have h1 : applyChecks (e :: t) ⟨Mode.Multi, sel⟩ =
        applyChecks t (step ⟨Mode.Multi, sel⟩ (.checkboxSet e.1 e.2)) := rfl
    have h2 : step ⟨Mode.Multi, sel⟩ (.checkboxSet e.1 e.2) =
        ⟨Mode.Multi, pyDictSet sel e.1 e.2⟩ := by
      simp [step]
    rw [h1, h2, ih]
    rfl

theorem foldl_pyDictSet_of_nodup {α : Type} (f : String → α) :
    ∀ (ids : List String) (d : List (String × α)), ids.Nodup →
      (∀ k ∈ ids, k ∉ dictKeys d) →
      ids.foldl (fun d' p => pyDictSet d' p (f p)) d =
        d ++ ids.map (fun p => (p, f p)) := by
  intro ids
  induction ids with
  | nil => intro d _ _; simp
  | cons p t ih =>
    intro d hnd hdisj
    rw [List.nodup_cons] at hnd
    rw [List.foldl_cons, pyDictSet_of_not_mem (hdisj p (List.mem_cons_self p t)) (f p)]
    have hdisj' : ∀ k ∈ t, k ∉ dictKeys (d ++ [(p, f p)]) := by
      intro k hk
      have h1 : k ∉ dictKeys d := hdisj k (List.mem_cons_of_mem p hk)
      have h2 : k ≠ p := fun he => hnd.1 (he ▸ hk)
      rw [dictKeys, List.map_append, List.mem_append]
      push_neg
      exact ⟨h1, by simp [h2]⟩
    rw [ih (d ++ [(p, f p)]) hnd.2 hdisj']
    simp

/-! ## String-mapping lemmas for the intent classifier -/

theorem listStartsWith_map (f : Char → Char) :
    ∀ {n h : List Char}, listStartsWith n h = true →
      listStartsWith (n.map f) (h.map f) = true := by
  intro n
  induction n with
  | nil => intro h _; simp [listStartsWith]
  | cons a as ih =>
    intro h hp
    cases h with
    | nil => simp [listStartsWith] at hp
    | cons b bs =>
      rw [listStartsWith, Bool.and_eq_true, beq_iff_eq] at hp
      rw [List.map_cons, List.map_cons, listStartsWith, Bool.and_eq_true, beq_iff_eq]
      exact ⟨congrArg f hp.1, ih hp.2⟩

theorem pyInStr_map (f : Char → Char) (n : List Char) :
    ∀ {h : List Char}, pyInStr n h = true → pyInStr (n.map f) (h.map f) = true := by
  intro h
  induction h with
  | nil =>
    intro hp
    rw [pyInStr] at hp
    rw [List.map_nil, pyInStr]
    simpa using listStartsWith_map f hp
  | cons c t ih =>
    intro hp
    rw [pyInStr, Bool.or_eq_true] at hp
    rw [List.map_cons, pyInStr, Bool.or_eq_true]
    rcases hp with h1 | h2
    · exact Or.inl (by simpa using listStartsWith_map f h1)
    · exact Or.inr (ih h2)

/-! ## Claim theorems -/

/-- Claim C1: the intent classifier is a pure function of the question string
and the selected count — `comparison_intent question n` is true if and only
if `n > 1` or the substring "compare" occurs case-insensitively anywhere in
`question`. -/
theorem C1_comparison_intent_iff (q : String) (n : Nat) :
    comparison_intent q n = true ↔
      (n > 1 ∨ occursCaseInsensitive cmpLit q = true) := by
  have hlit : cmpLit.map Char.toLower = cmpLit := by decide
  rw [comparison_intent, occursCaseInsensitive, hlit]
  simp only [Bool.or_eq_true, decide_eq_true_eq]
  constructor
  · rintro (h | h | h)
    · exact Or.inl h
    · exact Or.inr h
    · refine Or.inr ?_
      have h2 := pyInStr_map Char.toLower cmpLit h
      rwa [hlit] at h2
  · rintro (h | h)
    · exact Or.inl h
    · exact Or.inr (Or.inl h)

/-- Claim C2: on a submit run (Ask pressed), the NoSelection check and the
EmptyQuestion check are evaluated independently (app.py lines 112–116 are two
unconditional `if` statements), and when both preconditions are violated both
failure messages appear in the rendered output. -/
theorem C2_both_failures_reported (sel : List String) (q : String)
    (lq : Option LastQuery) (h1 : sel.isEmpty = true) (h2 : pyStripEmpty q = true) :
    "Select at least one paper card to proceed." ∈ renderValidation sel q true lq ∧
    "Question cannot be empty — use a chip or type a question." ∈
      renderValidation sel q true lq := by
  simp [renderValidation, h1, h2]

theorem C2_witness :
    "Select at least one paper card to proceed." ∈ renderValidation [] "" true none ∧
    "Question cannot be empty — use a chip or type a question." ∈
      renderValidation [] "" true none :=
  C2_both_failures_reported [] "" none (by decide) (by decide)

/-- Claim C3 counterexample: a reachable Multi-mode state (papers a and b
rendered unchecked, then b checked, then a checked — each rerun writes every
checkbox value back, app.py lines 86–87) in which `selected_list` returns
`["a", "b"]`, the dict's key-insertion order, while the ids became true in
the order `["b", "a"]`.  So `selected()` is not ordered by when ids became
true. -/
theorem C3_counterexample :
    selected_list
        (reach ([("a", false), ("b", false), ("a", false), ("b", true),
          ("a", true), ("b", true)].map
            (fun e => UAction.checkboxSet e.1 e.2))).selections = ["a", "b"] ∧
    becameTrueOrder [("a", false), ("b", false), ("a", false), ("b", true),
        ("a", true), ("b", true)] = ["b", "a"] ∧
    (["a", "b"] : List String) ≠ ["b", "a"] := by
  decide

/-- Claim C3 (amended): for every reachable selection state, `selected_list`
returns exactly the ids currently flagged true, ordered by the mapping's key
insertion order (a subsequence of the dict's key sequence) — not by the order
the ids became true. -/
theorem C3_selected_exact_key_order (acts : List UAction) (x : String) :
    (x ∈ selected_list (reach acts).selections ↔
      dictLookup (reach acts).selections x = some true) ∧
    (selected_list (reach acts).selections).Sublist (dictKeys (reach acts).selections) :=
  ⟨mem_selected_list (nodupKeys_reach acts) x, selected_list_sublist _⟩

/-- Claim C4: in Single mode, the single-select button replaces the entire
selection mapping with exactly `{id: true}` (app.py line 83); in particular
for a ≠ b, selecting a then b leaves `selected() = [b]` and nothing else. -/
theorem C4_selectSingle_replaces (s : AppState) (a b : String)
    (hmode : s.mode = Mode.Single) :
    (step s (.singleSelectBtn a)).selections = [(a, true)] ∧
    (a ≠ b →
      selected_list
        (step (step s (.singleSelectBtn a)) (.singleSelectBtn b)).selections = [b]) := by
  have h1 : step s (.singleSelectBtn a) = { s with selections := [(a, true)] } := by
    simp [step, hmode]
  refine ⟨by rw [h1], fun _ => ?_⟩
  rw [h1]
  simp [step, hmode, selected_list]

theorem C4_witness :
    (step ⟨Mode.Single, [("z", true)]⟩ (.singleSelectBtn "a")).selections =
      [("a", true)] ∧
    selected_list
      (step (step ⟨Mode.Single, [("z", true)]⟩ (.singleSelectBtn "a"))
        (.singleSelectBtn "b")).selections = ["b"] :=
  ⟨(C4_selectSingle_replaces ⟨Mode.Single, [("z", true)]⟩ "a" "b" rfl).1,
   (C4_selectSingle_replaces ⟨Mode.Single, [("z", true)]⟩ "a" "b" rfl).2 (by decide)⟩

/-- Claim C5: when the submit handler is blocked by validation (no selection,
or question blank after trimming), it produces no payload and leaves
`last_query` exactly as it was. -/
theorem C5_blocked_submit_no_mutation (sel : List String) (q : String)
    (lq : Option LastQuery) (h : sel.isEmpty = true ∨ pyStripEmpty q = true) :
    (askHandler sel q lq).2.1 = none ∧ (askHandler sel q lq).2.2 = lq := by
  rw [askHandler]
  rcases h with h | h
  · simp [h]
  · by_cases h1 : sel.isEmpty <;> simp [h1, h]

theorem C5_witness :
    (askHandler [] "What are the limitations?" none).2.1 = none ∧
    (askHandler [] "What are the limitations?" none).2.2 = none :=
  C5_blocked_submit_no_mutation [] "What are the limitations?" none (Or.inl rfl)

/-- Claim C6: the Select All button (app.py lines 60–62) sets every id of the
given sequence to true and leaves the flag of every id not in the sequence
unchanged — it is additive, not a reset-then-set. -/
theorem C6_selectAll_additive (s : AppState) (ids : List String) (x : String) :
    (x ∈ ids →
      dictLookup (step s (.selectAllBtn ids)).selections x = some true) ∧
    (x ∉ ids →
      dictLookup (step s (.selectAllBtn ids)).selections x =
        dictLookup s.selections x) := by
  have h : (step s (.selectAllBtn ids)).selections =
      ids.foldl (fun d p => pyDictSet d p true) s.selections := rfl
  rw [h]
  constructor <;> intro hx <;> rw [dictLookup_foldl_true] <;> simp [hx]

theorem C6_witness :
    dictLookup (step ⟨Mode.Multi, [("c", false)]⟩
      (.selectAllBtn ["a", "b"])).selections "a" = some true ∧
    dictLookup (step ⟨Mode.Multi, [("c", false)]⟩
      (.selectAllBtn ["a", "b"])).selections "c" = dictLookup [("c", false)] "c" :=
  ⟨(C6_selectAll_additive ⟨Mode.Multi, [("c", false)]⟩ ["a", "b"] "a").1 (by decide),
   (C6_selectAll_additive ⟨Mode.Multi, [("c", false)]⟩ ["a", "b"] "c").2 (by decide)⟩

/-- Claim C7: in Multi mode the checkbox write (app.py line 87) sets the flag
for its id to the given value and leaves every other id's flag untouched; and
for every trace of Multi-mode toggles from the empty state, `selected_list`
contains exactly the ids whose last toggle set them true. -/
theorem C7_toggle_frame_and_last_set :
    (∀ (sel : List (String × Bool)) (id : String) (v : Bool) (x : String),
      dictLookup (step ⟨Mode.Multi, sel⟩ (.checkboxSet id v)).selections id = some v ∧
      (x ≠ id →
        dictLookup (step ⟨Mode.Multi, sel⟩ (.checkboxSet id v)).selections x =
          dictLookup sel x)) ∧
    (∀ (tr : List (String × Bool)) (x : String),
      x ∈ selected_list (applyChecks tr ⟨Mode.Multi, []⟩).selections ↔
        lastSet tr x = some true) := by
  constructor
  · intro sel id v x
    have h : (step ⟨Mode.Multi, sel⟩ (.checkboxSet id v)).selections =
        pyDictSet sel id v := by
      simp [step]
    rw [h]
    constructor
    · rw [dictLookup_pyDictSet, if_pos rfl]
    · intro hx
      rw [dictLookup_pyDictSet, if_neg (fun he => hx he.symm)]
  · intro tr x
    rw [applyChecks_multi tr []]
    have hnd : NodupKeys (applyToggles tr []) :=
      nodupKeys_applyToggles tr (by simp [NodupKeys, dictKeys])
    rw [mem_selected_list hnd x, dictLookup_applyToggles tr [] x]
    cases hl : lastSet tr x with
    | some w => simp [optOr]
    | none => simp [optOr, dictLookup]

theorem C7_witness :
    dictLookup (step ⟨Mode.Multi, [("b", true)]⟩
      (.checkboxSet "a" false)).selections "b" = dictLookup [("b", true)] "b" ∧
    ("a" ∈ selected_list (applyChecks [("a", true)] ⟨Mode.Multi, []⟩).selections ↔
      lastSet [("a", true)] "a" = some true) :=
  ⟨(C7_toggle_frame_and_last_set.1 [("b", true)] "a" false "b").2 (by decide),
   C7_toggle_frame_and_last_set.2 [("a", true)] "a"⟩

/-- Claim C8 counterexample: on a list with a duplicate id the dict
comprehension collapses the repeat, so the iteration order of
`mock_comparison ["a", "a"]` is `["a"]`, not the input sequence
`["a", "a"]`. -/
theorem C8_counterexample :
    dictKeys (mock_comparison ["a", "a"]) = ["a"] ∧
    (["a"] : List String) ≠ ["a", "a"] := by
  constructor
  · rfl
  · decide

/-- Claim C8 (amended): `summarize` is deterministic, and for every
duplicate-free list of ids `compare(ids)` is exactly the mapping
`{id: summarize(id) for id in ids}` with iteration order equal to the input
order (duplicate ids would be collapsed onto their first occurrence). -/
theorem C8_compare_preserves_order (ids : List String) (h : ids.Nodup) :
    (∀ id : String, mock_structured_summary id = mock_structured_summary id) ∧
    mock_comparison ids = ids.map (fun p => (p, mock_structured_summary p)) := by
  refine ⟨fun _ => rfl, ?_⟩
  rw [mock_comparison,
    foldl_pyDictSet_of_nodup mock_structured_summary ids [] h (by simp [dictKeys])]
  simp

theorem C8_witness :
    ((∀ id : String, mock_structured_summary id = mock_structured_summary id) ∧
      mock_comparison ["a", "b"] =
        ["a", "b"].map (fun p => (p, mock_structured_summary p))) :=
  C8_compare_preserves_order ["a", "b"] (by decide)

/-- Claim C9: switching the mode from Multi to Single leaves the selections
dict untouched (the radio write changes only the mode), and the collapse to a
single selection happens only when a single-select button is then pressed. -/
theorem C9_mode_switch_keeps_selection (sel : List (String × Bool)) (id : String) :
    (step ⟨Mode.Multi, sel⟩ (.setMode Mode.Single)).selections = sel ∧
    (step (step ⟨Mode.Multi, sel⟩ (.setMode Mode.Single))
      (.singleSelectBtn id)).selections = [(id, true)] := by
  constructor <;> simp [step]

/-- Claim C10: every structured summary has its title equal to the input id
and fixed constant problem/method/results/limitations fields, so two
summaries for distinct ids differ only in the title. -/
theorem C10_summary_shape (a b : String) :
    (mock_structured_summary a).title = a ∧
    (mock_structured_summary a).problem =
      "Limited generalization to out-of-distribution datasets." ∧
    (mock_structured_summary a).method =
      "Hybrid RAG with a transformer-based retriever and lightweight reader." ∧
    (mock_structured_summary a).results =
      "Up to 15% improvement on in-domain benchmarks; mixed OOD performance." ∧
    (mock_structured_summary a).limitations =
      "Small evaluation set; no ablation on hyperparameters." ∧
    (mock_structured_summary a).problem = (mock_structured_summary b).problem ∧
    (mock_structured_summary a).method = (mock_structured_summary b).method ∧
    (mock_structured_summary a).results = (mock_structured_summary b).results ∧
    (mock_structured_summary a).limitations = (mock_structured_summary b).limitations ∧
    (a ≠ b → (mock_structured_summary a).title ≠ (mock_structured_summary b).title) := by
  refine ⟨rfl, rfl, rfl, rfl, rfl, rfl, rfl, rfl, rfl, fun h => ?_⟩
  simpa [mock_structured_summary] using h

theorem C10_witness :
    (mock_structured_summary "a").title = "a" ∧
    (mock_structured_summary "a").title ≠ (mock_structured_summary "b").title :=
  ⟨(C10_summary_shape "a" "b").1,
   (C10_summary_shape "a" "b").2.2.2.2.2.2.2.2.2 (by decide)⟩

end Wib
